import Mathlib

/-!
Verification of the progression and combat engine of Key Combat AI
(`js/game.js` and the data tables).  The repository bundles three
variants of `game.js`; we refer to them as V1 (the first copy, whose
gacha draw and run start scale the ultimate-charge threshold down with
level), V2 (the second copy, which routes every leveled-stat
computation through `getLeveledStats` and keeps the threshold fixed),
and V3 (the third copy, whose gacha draw and run-start fallback use the
full `charactersData` list instead of the art-filtered pool).

JavaScript numbers are modelled as rationals (`ℚ`); all values in the
data tables are integers and all arithmetic performed by the engine on
them is exact, so no floating-point rounding is observable.  JS objects
used as string-keyed maps are modelled as association lists in key
insertion order (JS preserves insertion order for string keys, and
`delete` keeps the order of the remaining keys).
-/

/-- A hero entry of `charactersData` (`data/characters.js`).  `image` is
`none` when the entry has no `image` property. -/
structure HeroTemplate where
  id : String
  name : String
  type : String
  baseHP : ℚ
  baseAttack : ℚ
  passive : String
  key : String
  ultChargeNeeded : ℚ
  ultEffect : String
  image : Option String := none
deriving Repr, DecidableEq

/-- An enemy entry of `enemiesData` (`data/enemies.js`). -/
structure EnemyTemplate where
  id : String
  name : String
  hp : ℚ
  attackPower : ℚ
deriving Repr, DecidableEq

/-- The `hero_fire_knight` entry of `charactersData` (no `image`). -/
def fireKnightData : HeroTemplate :=
  { id := "hero_fire_knight", name := "Blazing Knight", type := "Attack",
    baseHP := 100, baseAttack := 20,
    passive := "Burning Aura: Adds small burn damage over time", key := "e",
    ultChargeNeeded := 5, ultEffect := "Deals massive fire damage" }

/-- The `hero_healer` entry of `charactersData` (no `image`). -/
def healerData : HeroTemplate :=
  { id := "hero_healer", name := "Sacred Healer", type := "Support",
    baseHP := 80, baseAttack := 10,
    passive := "Heal on Combo: Heals team slightly on perfect combos", key := "r",
    ultChargeNeeded := 4, ultEffect := "Heals entire team to full" }

/-- The `hero_shadow_rogue` entry of `charactersData` (no `image`). -/
def shadowRogueData : HeroTemplate :=
  { id := "hero_shadow_rogue", name := "Shadow Rogue", type := "Attack",
    baseHP := 70, baseAttack := 25,
    passive := "Critical Strike: Chance to deal double damage", key := "t",
    ultChargeNeeded := 6, ultEffect := "Unleashes a flurry of strikes" }

/-- The `hero_azal` entry of `charactersData`. -/
def azalData : HeroTemplate :=
  { id := "hero_azal", name := "Azal", type := "Attack",
    baseHP := 90, baseAttack := 22,
    passive := "Infernal Surge: Bonus damage when at low HP", key := "y",
    ultChargeNeeded := 5, ultEffect := "Unleashes a burst of flame",
    image := some "assets/images/heroes/Azal_character.png" }

/-- The `hero_fyra` entry of `charactersData`. -/
def fyraData : HeroTemplate :=
  { id := "hero_fyra", name := "Fyra", type := "Support",
    baseHP := 85, baseAttack := 15,
    passive := "Flame Ward: Shields allies briefly", key := "u",
    ultChargeNeeded := 4, ultEffect := "Restores ally health over time",
    image := some "assets/images/heroes/fyra_character.png" }

/-- The `hero_lucien` entry of `charactersData`. -/
def lucienData : HeroTemplate :=
  { id := "hero_lucien", name := "Lucien", type := "Attack",
    baseHP := 95, baseAttack := 23,
    passive := "Blade Dance: Small chance for extra strike", key := "i",
    ultChargeNeeded := 6, ultEffect := "Performs a deadly combo",
    image := some "assets/images/heroes/lucien_character.png" }

/-- The `hero_raeni` entry of `charactersData`. -/
def raeniData : HeroTemplate :=
  { id := "hero_raeni", name := "Raeni", type := "Support",
    baseHP := 75, baseAttack := 12,
    passive := "Wind Blessing: Increases ally speed", key := "o",
    ultChargeNeeded := 5, ultEffect := "Summons a protective gale",
    image := some "assets/images/heroes/raeni_character.png" }

/-- The `hero_velra` entry of `charactersData`. -/
def velraData : HeroTemplate :=
  { id := "hero_velra", name := "Velra", type := "Attack",
    baseHP := 100, baseAttack := 18,
    passive := "Stone Skin: Reduces incoming damage slightly", key := "p",
    ultChargeNeeded := 5, ultEffect := "Slams the ground for area damage",
    image := some "assets/images/heroes/velra_character.png" }

/-- The `hero_zhae` entry of `charactersData`. -/
def zhaeData : HeroTemplate :=
  { id := "hero_zhae", name := "Zhae", type := "Attack",
    baseHP := 85, baseAttack := 26,
    passive := "Shadowstep: Dodges one attack periodically", key := "a",
    ultChargeNeeded := 6, ultEffect := "Strikes from the shadows",
    image := some "assets/images/heroes/zhae_character.png" }

/-- The `charactersData` table from `data/characters.js`, in declaration
order. -/
def charactersData : List HeroTemplate :=
  [fireKnightData, healerData, shadowRogueData, azalData, fyraData,
   lucienData, raeniData, velraData, zhaeData]

/-- The `enemy_goblin` entry of `enemiesData`. -/
def goblinData : EnemyTemplate :=
  { id := "enemy_goblin", name := "Goblin Grunt", hp := 50, attackPower := 5 }

/-- The `enemiesData` table from `data/enemies.js`. -/
def enemiesData : List EnemyTemplate :=
  [ goblinData,
    { id := "enemy_orc", name := "Orc Warrior", hp := 80, attackPower := 8 },
    { id := "enemy_skeleton", name := "Skeleton Archer", hp := 40, attackPower := 6 } ]

/-- JS truthiness of the `image` property: present and not the empty
string (`charactersData.filter((h) => h.image)`). -/
def hasArt (h : HeroTemplate) : Bool :=
  match h.image with
  | some s => s != ""
  | none => false

/-- The filter `charactersData.filter((h) => h.image)` applied to an
arbitrary catalog. -/
def heroesWithArt (cat : List HeroTemplate) : List HeroTemplate :=
  cat.filter (fun h => hasArt h)

/-- `availableHeroes`: the art-bearing heroes of the repository's
catalog, in declaration order. -/
def availableHeroes : List HeroTemplate :=
  heroesWithArt charactersData

/-- The module-level `validHeroIds` set (V2): ids of `availableHeroes`. -/
def validHeroIds : List String :=
  availableHeroes.map (fun h => h.id)

/-- Lookup in a JS object used as a string-keyed map
(`saveData.heroLevels[id]`): `none` models `undefined`. -/
def levelsGet (m : List (String × ℚ)) (k : String) : Option ℚ :=
  (m.find? (fun p => p.1 == k)).map (fun p => p.2)

/-- Assignment `m[k] = v` on a JS object: updates the existing key in
place, otherwise appends the key at the end (JS insertion order). -/
def levelsSet (m : List (String × ℚ)) (k : String) (v : ℚ) : List (String × ℚ) :=
  match m with
  | [] => [(k, v)]
  | p :: rest => if p.1 = k then (k, v) :: rest else p :: levelsSet rest k v

/-- JS `x || d` applied to a possibly-`undefined` number: `undefined`
and `0` are falsy and give `d`, every other number is kept. -/
def jsOrNum (v : Option ℚ) (d : ℚ) : ℚ :=
  match v with
  | some x => if x = 0 then d else x
  | none => d

/-- The persisted save document: `{unlockedHeroes, heroLevels,
demonSouls}` (see `loadSaveData` / `saveGameData`). -/
structure SaveRecord where
  unlockedHeroes : List String
  heroLevels : List (String × ℚ)
  demonSouls : ℚ
deriving Repr, DecidableEq

/-- The default save structure returned by `loadSaveData` when nothing
valid is stored. -/
def defaultSave : SaveRecord :=
  { unlockedHeroes := [], heroLevels := [], demonSouls := 0 }

/-- A JSON value, modelling what `JSON.parse` can return for the
`kca_save` key.  Numbers are rationals (JS doubles; every value the
game writes is an integer). -/
inductive Json where
  | null : Json
  | bool (b : Bool) : Json
  | num (q : ℚ) : Json
  | str (s : String) : Json
  | arr (elems : List Json) : Json
  | obj (fields : List (String × Json)) : Json

/-- JS truthiness of a JSON value (objects and arrays are always
truthy; `0`, `""`, `false` and `null` are falsy). -/
def jsTruthy : Json → Bool
  | Json.null => false
  | Json.bool b => b
  | Json.num q => q != 0
  | Json.str s => s != ""
  | Json.arr _ => true
  | Json.obj _ => true

/-- Property access `obj.field` on a parsed JSON object: `none` models
`undefined`. -/
def jsField (fields : List (String × Json)) (k : String) : Option Json :=
  (fields.find? (fun p => p.1 == k)).map (fun p => p.2)

/-- JS `v || d` on a possibly-`undefined` JSON value. -/
def jsOrJson (v : Option Json) (d : Json) : Json :=
  match v with
  | some x => if jsTruthy x then x else d
  | none => d

/-- Reads a JSON array of strings (`unlockedHeroes`).  Elements that
are not strings cannot occur in a value the game itself persisted and
are dropped. -/
def asStrList : Json → List String
  | Json.arr xs => xs.filterMap (fun j => match j with | Json.str s => some s | _ => none)
  | _ => []

/-- Reads a JSON object of numeric fields (`heroLevels`), in key
insertion order.  Non-numeric field values cannot occur in a value the
game itself persisted and are dropped. -/
def asLevels : Json → List (String × ℚ)
  | Json.obj fs => fs.filterMap (fun p => match p.2 with | Json.num q => some (p.1, q) | _ => none)
  | _ => []

/-- Reads a JSON number (`demonSouls`). -/
def asNum : Json → ℚ
  | Json.num q => q
  | _ => 0

/-- `loadSaveData()`: parses the stored document; `none` models an
absent key (and a text-level parse failure, which ends in the same
default).  A parsed non-object fails the `typeof saved === 'object'`
check (or is falsy) and yields the default record; otherwise the three
fields are read with `||` fallbacks.  A parsed array passes the JS
`typeof` check but has none of the three fields, so its record view is
the default one, as modelled. -/
def loadSaveData (stored : Option Json) : SaveRecord :=
  match stored with
  | some (Json.obj fs) =>
      { unlockedHeroes := asStrList (jsOrJson (jsField fs "unlockedHeroes") (Json.arr [])),
        heroLevels := asLevels (jsOrJson (jsField fs "heroLevels") (Json.obj [])),
        demonSouls := asNum (jsOrJson (jsField fs "demonSouls") (Json.num 0)) }
  | _ => defaultSave

/-- `JSON.stringify(saveData)`: the serialized form of the record. -/
def encodeSave (r : SaveRecord) : Json :=
  Json.obj [("unlockedHeroes", Json.arr (r.unlockedHeroes.map Json.str)),
            ("heroLevels", Json.obj (r.heroLevels.map (fun p => (p.1, Json.num p.2)))),
            ("demonSouls", Json.num r.demonSouls)]

/-- The mutable module state relevant to progression: the in-memory
`saveData` object and the `kca_save` slot of `localStorage`. -/
structure GameState where
  save : SaveRecord
  store : Option Json

/-- `saveGameData()`: writes `JSON.stringify(saveData)` to
`localStorage` (the quota-failure path leaves the store unchanged and
is not modelled; no claim depends on it). -/
def saveGameData (st : GameState) : GameState :=
  { st with store := some (encodeSave st.save) }

/-- The module-init reconciliation (V2): filters `unlockedHeroes` by
membership in `validIds` and deletes every `heroLevels` entry whose key
is not in `validIds`.  `validIds` is the `validHeroIds` set at the
repository's catalog. -/
def reconcileSave (validIds : List String) (r : SaveRecord) : SaveRecord :=
  { r with
    unlockedHeroes := r.unlockedHeroes.filter (fun id => validIds.contains id),
    heroLevels := r.heroLevels.filter (fun p => validIds.contains p.1) }

/-- The whole V2 module initialization: load from the store, then
reconcile against `validHeroIds`.  The store itself is not written. -/
def moduleInitV2 (stored : Option Json) : GameState :=
  { save := reconcileSave validHeroIds (loadSaveData stored), store := stored }

/-- `LEVEL_UP_INCREMENTS` (V2): per-level increase of each stat; stats
not listed (the ultimate charge) stay unchanged when leveling up. -/
structure LevelUpIncrements where
  hp : ℚ
  atk : ℚ
deriving Repr, DecidableEq

/-- The configured values of `LEVEL_UP_INCREMENTS`. -/
def LEVEL_UP_INCREMENTS : LevelUpIncrements :=
  { hp := 10, atk := 2 }

/-- The derived leveled stats record `{hp, atk, ultCharge}`. -/
structure LeveledStats where
  hp : ℚ
  atk : ℚ
  ultCharge : ℚ
deriving Repr, DecidableEq

/-- `getLeveledStats(data, level)` (V2): linear hp/atk scaling from the
increments table, ultimate charge taken unchanged from the template.
The `|| 0` fallbacks on the increments are the identity at the
configured values and are not modelled. -/
def getLeveledStats (data : HeroTemplate) (level : ℚ) : LeveledStats :=
  { hp := data.baseHP + (level - 1) * LEVEL_UP_INCREMENTS.hp,
    atk := data.baseAttack + (level - 1) * LEVEL_UP_INCREMENTS.atk,
    ultCharge := data.ultChargeNeeded }

/-- The `oldStats` object computed inline by the V1 `gachaDraw`
(first copy, around lines 205-209). -/
def gachaOldStatsV1 (data : HeroTemplate) (oldLevel : ℚ) : LeveledStats :=
  { hp := data.baseHP + max 0 (oldLevel - 1) * 10,
    atk := data.baseAttack + max 0 (oldLevel - 1) * 2,
    ultCharge := max 1 (data.ultChargeNeeded - max 0 (oldLevel - 1)) }

/-- The `newStats` object computed inline by the V1 `gachaDraw`
(first copy, around lines 217-221). -/
def gachaNewStatsV1 (data : HeroTemplate) (newLevel : ℚ) : LeveledStats :=
  { hp := data.baseHP + (newLevel - 1) * 10,
    atk := data.baseAttack + (newLevel - 1) * 2,
    ultCharge := max 1 (data.ultChargeNeeded - (newLevel - 1)) }

/-- The stats written onto a hero by the V1 `startNewRun` (first copy,
around lines 290-293): hp and attack scale linearly and the ultimate
charge is scaled down by level, floored at 1. -/
def startRunStatsV1 (data : HeroTemplate) (level : ℚ) : LeveledStats :=
  { hp := data.baseHP + (level - 1) * 10,
    atk := data.baseAttack + (level - 1) * 2,
    ultCharge := max 1 (data.ultChargeNeeded - (level - 1)) }

/-- The `currentReveal` payload built by the V2 `gachaDraw` (minus the
`startTime` timestamp and the image-cache side effect, which are
outside the progression model). -/
structure DrawResult where
  hero : HeroTemplate
  isNew : Bool
  oldStats : Option LeveledStats
  newStats : LeveledStats
  level : ℚ
deriving Repr, DecidableEq

/-- The V2 `gachaDraw` body after the random index has resolved to
`heroData` (second copy, lines 870-904): computes old/new stats with
`getLeveledStats`, writes the new level, unlocks the hero if needed,
and persists write-through. -/
def gachaDrawV2 (heroData : HeroTemplate) (st : GameState) : DrawResult × GameState :=
  let heroId := heroData.id
  let wasUnlocked := st.save.unlockedHeroes.contains heroId
  let oldLevel := jsOrNum (levelsGet st.save.heroLevels heroId) 0
  let oldStats := getLeveledStats heroData (max 1 oldLevel)
  let newLevel := if wasUnlocked then oldLevel + 1 else 1
  let save1 :=
    { st.save with
      heroLevels := levelsSet st.save.heroLevels heroId newLevel,
      unlockedHeroes :=
        if wasUnlocked then st.save.unlockedHeroes
        else st.save.unlockedHeroes ++ [heroId] }
  let st1 := saveGameData { st with save := save1 }
  ({ hero := heroData,
     isNew := !wasUnlocked,
     oldStats := if wasUnlocked then some oldStats else none,
     newStats := getLeveledStats heroData newLevel,
     level := newLevel }, st1)

/-- The return value of the V3 `gachaDraw`. -/
structure DrawResultV3 where
  hero : HeroTemplate
  level : ℚ
  isNew : Bool
deriving Repr, DecidableEq

/-- The V3 `gachaDraw` body after the random index has resolved to
`heroData` (third copy, lines 1451-1469).  The drawn pool there is the
whole `charactersData`, not the art-filtered list.  When the hero is
already unlocked the code runs `heroLevels[heroId] += 1`; if the level
entry were absent that would store `NaN`, which has no rational value,
so that case is modelled as `none` (it cannot arise from a record
satisfying the save-data invariant). -/
def gachaDrawV3 (heroData : HeroTemplate) (st : GameState) : Option (DrawResultV3 × GameState) :=
  let heroId := heroData.id
  if st.save.unlockedHeroes.contains heroId then
    match levelsGet st.save.heroLevels heroId with
    | some oldLevel =>
        let save1 := { st.save with heroLevels := levelsSet st.save.heroLevels heroId (oldLevel + 1) }
        let st1 := saveGameData { st with save := save1 }
        some ({ hero := heroData, level := oldLevel + 1, isNew := false }, st1)
    | none => none
  else
    let save1 :=
      { st.save with
        unlockedHeroes := st.save.unlockedHeroes ++ [heroId],
        heroLevels := levelsSet st.save.heroLevels heroId 1 }
    let st1 := saveGameData { st with save := save1 }
    some ({ hero := heroData, level := 1, isNew := true }, st1)

/-- Selection of the V2 gacha pool at a random index
(`availableHeroes[Math.floor(Math.random() * availableHeroes.length)]`). -/
def gachaSelectV2 (idx : ℕ) : Option HeroTemplate :=
  availableHeroes[idx]?

/-- Selection of the V3 gacha pool at a random index
(`charactersData[Math.floor(Math.random() * charactersData.length)]`). -/
def gachaSelectV3 (idx : ℕ) : Option HeroTemplate :=
  charactersData[idx]?

/-- The `Hero` class: a run-scoped combat unit.  Fields mirror the
constructor (identical in all three copies). -/
structure Hero where
  id : String
  name : String
  type : String
  baseHP : ℚ
  baseAttack : ℚ
  passive : String
  key : String
  ultChargeNeeded : ℚ
  ultEffect : String
  level : ℚ
  currentHP : ℚ
  ultMeter : ℚ
deriving Repr, DecidableEq

/-- The `Enemy` class: a run-scoped combat unit. -/
structure Enemy where
  id : String
  name : String
  hp : ℚ
  attackPower : ℚ
deriving Repr, DecidableEq

/-- `new Hero(data)`: level 1, full HP, empty ultimate meter. -/
def Hero.ofData (data : HeroTemplate) : Hero :=
  { id := data.id, name := data.name, type := data.type,
    baseHP := data.baseHP, baseAttack := data.baseAttack,
    passive := data.passive, key := data.key.toLower,
    ultChargeNeeded := data.ultChargeNeeded, ultEffect := data.ultEffect,
    level := 1, currentHP := data.baseHP, ultMeter := 0 }

/-- `new Enemy(data)`. -/
def Enemy.ofData (data : EnemyTemplate) : Enemy :=
  { id := data.id, name := data.name, hp := data.hp, attackPower := data.attackPower }

/-- `Enemy.takeDamage(amount)`: `hp -= amount; if (hp < 0) hp = 0`. -/
def Enemy.takeDamage (e : Enemy) (amount : ℚ) : Enemy :=
  { e with hp := if e.hp - amount < 0 then 0 else e.hp - amount }

/-- `Enemy.isAlive()`: `hp > 0`. -/
def Enemy.isAlive (e : Enemy) : Bool :=
  e.hp > 0

/-- `Hero.takeDamage(amount)`: same floor guard on `currentHP`. -/
def Hero.takeDamage (h : Hero) (amount : ℚ) : Hero :=
  { h with currentHP := if h.currentHP - amount < 0 then 0 else h.currentHP - amount }

/-- `Hero.attack(target)`: damage `baseAttack * level` to the target,
ultimate meter up by one (no cap). -/
def Hero.attack (h : Hero) (target : Enemy) : Hero × Enemy :=
  let damage := h.baseAttack * h.level
  ({ h with ultMeter := h.ultMeter + 1 }, target.takeDamage damage)

/-- `Hero.tryUlt(target, chargePercent)`: only acts when the meter has
reached the threshold; then deals `baseAttack * 2 * level *
chargePercent` and resets the meter to 0.  The source's default
argument is `chargePercent = 1.0`. -/
def Hero.tryUlt (h : Hero) (target : Enemy) (chargePercent : ℚ) : Hero × Enemy :=
  if h.ultMeter ≥ h.ultChargeNeeded then
    let damage := h.baseAttack * 2 * h.level * chargePercent
    ({ h with ultMeter := 0 }, target.takeDamage damage)
  else
    (h, target)

/-- `applyLeveledStats(hero, data)` (V2): copies the leveled stats onto
the unit and refills `currentHP`. -/
def applyLeveledStats (hero : Hero) (data : HeroTemplate) : Hero :=
  let stats := getLeveledStats data hero.level
  { hero with baseHP := stats.hp, baseAttack := stats.atk,
              ultChargeNeeded := stats.ultCharge, currentHP := stats.hp }

/-- The party id selection of the V2 `startNewRun` (lines 940-947):
first 3 unlocked ids when at least 3 are unlocked, otherwise the first
3 art-bearing catalog heroes. -/
def startRunHeroIdsV2 (save : SaveRecord) : List String :=
  if save.unlockedHeroes.length ≥ 3 then save.unlockedHeroes.take 3
  else (availableHeroes.take 3).map (fun h => h.id)

/-- The party id selection of the V3 `startNewRun` (lines 1488-1495):
the fallback uses the full `charactersData`, ignoring art. -/
def startRunHeroIdsV3 (save : SaveRecord) : List String :=
  if save.unlockedHeroes.length ≥ 3 then save.unlockedHeroes.take 3
  else (charactersData.take 3).map (fun h => h.id)

/-- Instantiation of one party hero in the V2 `startNewRun` (lines
949-956): resolve the template, set `level = heroLevels[id] || 1`, and
apply the leveled stats.  `charactersData.find` returning `undefined`
(a dangling id, on which `new Hero(undefined)` would throw) is `none`. -/
def instantiateHeroV2 (save : SaveRecord) (id : String) : Option Hero :=
  match charactersData.find? (fun h => h.id == id) with
  | none => none
  | some data =>
      let hero := Hero.ofData data
      let hero := { hero with level := jsOrNum (levelsGet save.heroLevels id) 1 }
      some (applyLeveledStats hero data)

/-- Instantiation of one party hero in the V3 `startNewRun` (lines
1497-1506): hp and attack scale linearly, `ultChargeNeeded` is left at
the template value, `currentHP` is the scaled `baseHP`. -/
def instantiateHeroV3 (save : SaveRecord) (id : String) : Option Hero :=
  match charactersData.find? (fun h => h.id == id) with
  | none => none
  | some data =>
      let hero := Hero.ofData data
      let level := jsOrNum (levelsGet save.heroLevels id) 1
      some { hero with
             level := level,
             baseHP := data.baseHP + (level - 1) * 10,
             baseAttack := data.baseAttack + (level - 1) * 2,
             currentHP := data.baseHP + (level - 1) * 10 }

/-- The party built by the V2 `startNewRun`. -/
def buildPartyV2 (save : SaveRecord) : Option (List Hero) :=
  (startRunHeroIdsV2 save).mapM (instantiateHeroV2 save)

/-- The party built by the V3 `startNewRun`. -/
def buildPartyV3 (save : SaveRecord) : Option (List Hero) :=
  (startRunHeroIdsV3 save).mapM (instantiateHeroV3 save)

/-- The save-data invariant of the data model: the level mapping and
the unlocked set key each other (every level key is unlocked and every
unlocked id has a level entry). -/
def SaveWF (r : SaveRecord) : Prop :=
  (∀ p ∈ r.heroLevels, p.1 ∈ r.unlockedHeroes) ∧
  (∀ id ∈ r.unlockedHeroes, (levelsGet r.heroLevels id).isSome)

/-- The game state right after a first launch: default save, empty
store. -/
def initialState : GameState :=
  { save := defaultSave, store := none }

/-- A well-formed save with Azal unlocked at level 2, used to exercise
the duplicate-draw path on concrete inputs. -/
def azalLevel2Save : SaveRecord :=
  { unlockedHeroes := ["hero_azal"], heroLevels := [("hero_azal", 2)], demonSouls := 0 }

/-- The game state holding `azalLevel2Save` with an empty store. -/
def azalLevel2State : GameState :=
  { save := azalLevel2Save, store := none }

/-- The spec's combat-determinism unit: Blazing Knight at level 2 with
its unleveled `baseAttack = 20`. -/
def demoLeveledHero : Hero :=
  { Hero.ofData fireKnightData with level := 2 }

/-- The spec's combat-determinism target: a fresh Goblin Grunt
(`hp = 50`). -/
def demoEnemy : Enemy :=
  Enemy.ofData goblinData

/-- The spec's ultimate-gating unit: threshold 5, meter 4. -/
def demoChargingHero : Hero :=
  { Hero.ofData fireKnightData with ultMeter := 4 }

/-- The same unit after one more attack landed: meter 5. -/
def demoChargedHero : Hero :=
  { Hero.ofData fireKnightData with ultMeter := 5 }

theorem jsOrNum_some_zero (x : ℚ) : jsOrNum (some x) 0 = x := by
  simp only [jsOrNum]
  split <;> simp_all

theorem levelsGet_levelsSet_self (m : List (String × ℚ)) (k : String) (v : ℚ) :
    levelsGet (levelsSet m k v) k = some v := by
  induction m with
  | nil => simp [levelsSet, levelsGet, List.find?]
  | cons p rest ih =>
      by_cases h : p.1 = k
      · simp [levelsSet, levelsGet, List.find?, h]
      · simpa [levelsSet, levelsGet, List.find?, h] using ih

theorem levelsGet_cons (p : String × ℚ) (rest : List (String × ℚ)) (k : String) :
    levelsGet (p :: rest) k = if p.1 = k then some p.2 else levelsGet rest k := by
  by_cases h : p.1 = k
  · simp [levelsGet, List.find?_cons_of_pos, h]
  · simp [levelsGet, List.find?_cons_of_neg, h]

theorem levelsGet_levelsSet_ne (m : List (String × ℚ)) (k k' : String) (v : ℚ)
    (h : k' ≠ k) : levelsGet (levelsSet m k v) k' = levelsGet m k' := by
  induction m with
  | nil => simp [levelsSet, levelsGet_cons, Ne.symm h, levelsGet]
  | cons p rest ih =>
      by_cases hp : p.1 = k
      · simp [levelsSet, hp, levelsGet_cons, Ne.symm h]
      · simp [levelsSet, hp, levelsGet_cons, ih]

theorem mem_levelsSet (m : List (String × ℚ)) (k : String) (v : ℚ) :
    ∀ p ∈ levelsSet m k v, p = (k, v) ∨ p ∈ m := by
  induction m with
  | nil => intro p hp; simpa [levelsSet] using hp
  | cons q rest ih =>
      intro p hp
      by_cases h : q.1 = k
      · rw [show levelsSet (q :: rest) k v = (k, v) :: rest from by simp [levelsSet, h]] at hp
        rcases List.mem_cons.mp hp with h1 | h1
        · exact Or.inl h1
        · exact Or.inr (List.mem_cons_of_mem _ h1)
      · rw [show levelsSet (q :: rest) k v = q :: levelsSet rest k v from by simp [levelsSet, h]] at hp
        rcases List.mem_cons.mp hp with h1 | h1
        · exact Or.inr (h1 ▸ List.mem_cons_self _ _)
        · rcases ih p h1 with h2 | h2
          · exact Or.inl h2
          · exact Or.inr (List.mem_cons_of_mem _ h2)

theorem levelsSet_ne_of_get_ne (m : List (String × ℚ)) (k : String) (v : ℚ)
    (h : levelsGet m k ≠ some v) : levelsSet m k v ≠ m := by
  intro he
  exact h (he ▸ levelsGet_levelsSet_self m k v)

theorem asStrList_encode (xs : List String) :
    asStrList (Json.arr (xs.map Json.str)) = xs := by
  induction xs with
  | nil => rfl
  | cons x rest ih => simpa [asStrList] using ih

theorem asLevels_encode (m : List (String × ℚ)) :
    asLevels (Json.obj (m.map (fun p => (p.1, Json.num p.2)))) = m := by
  induction m with
  | nil => rfl
  | cons p rest ih => simpa [asLevels] using ih

theorem hasArt_of_getElem_heroesWithArt (cat : List HeroTemplate) (i : ℕ) (h : HeroTemplate)
    (hg : (heroesWithArt cat)[i]? = some h) : hasArt h = true := by
  have hm : h ∈ heroesWithArt cat := List.getElem?_mem hg
  exact (List.mem_filter.mp hm).2

theorem takeDamage_eq_max (e : Enemy) (amount : ℚ) :
    e.takeDamage amount = { e with hp := max 0 (e.hp - amount) } := by
  unfold Enemy.takeDamage
  by_cases h : e.hp - amount < 0
  · simp [h, max_eq_left (le_of_lt h)]
  · simp [h, max_eq_right (not_lt.mp h)]

theorem contains_eq_true_of_mem {l : List String} {a : String} (h : a ∈ l) :
    l.contains a = true := by
  simp [List.contains, List.elem_eq_mem, h]

theorem contains_eq_false_of_not_mem {l : List String} {a : String} (h : a ∉ l) :
    l.contains a = false := by
  simp [List.contains, List.elem_eq_mem, h]

/-- C6: `attack(target)` deals exactly `baseAttack * level` damage, the
target's hp becomes `max 0 (hp - damage)`, and the attacker's ultimate
meter increases by exactly 1 with no cap; concretely, the level-2
Blazing Knight (`baseAttack = 20`) reduces a 50-hp Goblin to 10 hp, a
second identical attack reduces it to 0, and `isAlive` then returns
`false`. -/
theorem c6_attack_formula :
    (∀ (h : Hero) (e : Enemy),
        Hero.attack h e =
          ({ h with ultMeter := h.ultMeter + 1 },
           { e with hp := max 0 (e.hp - h.baseAttack * h.level) })) ∧
    (Hero.attack demoLeveledHero demoEnemy).2.hp = 10 ∧
    (Hero.attack demoLeveledHero (Hero.attack demoLeveledHero demoEnemy).2).2.hp = 0 ∧
    Enemy.isAlive (Hero.attack demoLeveledHero (Hero.attack demoLeveledHero demoEnemy).2).2 = false := by
  have hform : ∀ (h : Hero) (e : Enemy),
      Hero.attack h e =
        ({ h with ultMeter := h.ultMeter + 1 },
         { e with hp := max 0 (e.hp - h.baseAttack * h.level) }) := by
    intro h e
    simp only [Hero.attack, takeDamage_eq_max]
  refine ⟨hform, ?_, ?_, ?_⟩ <;>
    simp only [hform, Enemy.isAlive] <;>
    norm_num [demoEnemy, demoLeveledHero, Enemy.ofData, Hero.ofData, goblinData,
      fireKnightData, max_def]

/-- C5: `tryUlt(target, chargePercent)` is gated exactly by the meter:
below the threshold it leaves hero and target completely unchanged (and
raises no error); at or above it, it deals
`baseAttack * 2 * level * chargePercent` damage and resets the meter to
exactly 0, discarding any excess charge. -/
theorem c5_try_ultimate (h : Hero) (e : Enemy) (cf : ℚ) :
    (h.ultMeter < h.ultChargeNeeded → Hero.tryUlt h e cf = (h, e)) ∧
    (h.ultChargeNeeded ≤ h.ultMeter →
      Hero.tryUlt h e cf =
        ({ h with ultMeter := 0 },
         { e with hp := max 0 (e.hp - h.baseAttack * 2 * h.level * cf) })) := by
  constructor
  · intro hlt
    simp only [Hero.tryUlt, ge_iff_le, if_neg (not_le.mpr hlt)]
  · intro hge
    simp only [Hero.tryUlt, ge_iff_le, if_pos hge, takeDamage_eq_max]

/-- Witness for C5 at the spec's concrete inputs: threshold 5 with
meter 4 is a perfect no-op; with meter 5 the ultimate fires for
`baseAttack * 2 * level * 1` and zeroes the meter. -/
theorem c5_try_ultimate_witness :
    (demoChargingHero.ultMeter < demoChargingHero.ultChargeNeeded ∧
      Hero.tryUlt demoChargingHero demoEnemy 1 = (demoChargingHero, demoEnemy)) ∧
    (demoChargedHero.ultChargeNeeded ≤ demoChargedHero.ultMeter ∧
      Hero.tryUlt demoChargedHero demoEnemy 1 =
        ({ demoChargedHero with ultMeter := 0 },
         { demoEnemy with
           hp := max 0 (demoEnemy.hp
             - demoChargedHero.baseAttack * 2 * demoChargedHero.level * 1) })) :=
  ⟨⟨by decide, (c5_try_ultimate demoChargingHero demoEnemy 1).1 (by decide)⟩,
   ⟨by decide, (c5_try_ultimate demoChargedHero demoEnemy 1).2 (by decide)⟩⟩

/-- C8: persisting the current save record and loading it back yields a
record field-for-field equal to the original: same unlocked ids in the
same order, same level entries, same currency. -/
theorem c8_save_roundtrip (st : GameState) :
    loadSaveData (saveGameData st).store = st.save := by
  obtain ⟨⟨u, m, d⟩, store⟩ := st
  show loadSaveData (some (encodeSave ⟨u, m, d⟩)) = ⟨u, m, d⟩
  simp only [encodeSave, loadSaveData, jsField, List.find?]
  norm_num [jsOrJson, jsTruthy]
  by_cases hd : d = 0 <;>
    simp [hd, asStrList_encode, asLevels_encode, asNum]

/-- C10: load-time reconciliation touches only the in-memory record and
only its unlocked/levels fields: module init never writes the store (so
pruned orphans survive there), the currency is unchanged by
reconciliation, and the next draw is what persists the reconciled
record. -/
theorem c10_reconcile_frame :
    (∀ stored : Option Json, (moduleInitV2 stored).store = stored) ∧
    (∀ (ids : List String) (r : SaveRecord),
        (reconcileSave ids r).demonSouls = r.demonSouls) ∧
    (∀ stored : Option Json,
        (moduleInitV2 stored).save.demonSouls = (loadSaveData stored).demonSouls) ∧
    (∀ (heroData : HeroTemplate) (st : GameState),
        (gachaDrawV2 heroData st).2.store =
          some (encodeSave (gachaDrawV2 heroData st).2.save)) := by
  refine ⟨fun stored => rfl, fun ids r => rfl, fun stored => rfl, fun heroData st => rfl⟩

/-- C1 counterexample: the claim says the ultimate-charge threshold is
unchanged by level at every place leveled stats are computed, including
the gacha draw's `newStats`; but the V1 gacha draw (the site cited at
lines 205-221) computes `max 1 (threshold - (level - 1))`, which for
Azal (threshold 5) at level 2 gives 4, not 5. -/
theorem c1_threshold_scaled_counterexample :
    (gachaNewStatsV1 azalData 2).ultCharge ≠ azalData.ultChargeNeeded := by
  show max 1 (azalData.ultChargeNeeded - (2 - 1)) ≠ azalData.ultChargeNeeded
  norm_num [azalData, max_def]

/-- C1 amended: for every template and level ≥ 1, the hp and attack
formulas `baseHP + (level-1)*10` and `baseAttack + (level-1)*2` hold at
every site, and `getLeveledStats` (hence the V2 gacha draw and V2 run
start, which call it) keeps the threshold unchanged; the V1 gacha
draw's old/new stats and the V1 run start instead use
`max 1 (threshold - (level-1))`, which does change with level. -/
theorem c1_stat_formula_amended (d : HeroTemplate) (l : ℚ) (hl : 1 ≤ l) :
    getLeveledStats d l =
      { hp := d.baseHP + (l - 1) * 10, atk := d.baseAttack + (l - 1) * 2,
        ultCharge := d.ultChargeNeeded } ∧
    gachaOldStatsV1 d l =
      { hp := d.baseHP + (l - 1) * 10, atk := d.baseAttack + (l - 1) * 2,
        ultCharge := max 1 (d.ultChargeNeeded - (l - 1)) } ∧
    gachaNewStatsV1 d l =
      { hp := d.baseHP + (l - 1) * 10, atk := d.baseAttack + (l - 1) * 2,
        ultCharge := max 1 (d.ultChargeNeeded - (l - 1)) } ∧
    startRunStatsV1 d l =
      { hp := d.baseHP + (l - 1) * 10, atk := d.baseAttack + (l - 1) * 2,
        ultCharge := max 1 (d.ultChargeNeeded - (l - 1)) } := by
  have hm : max 0 (l - 1) = l - 1 := max_eq_right (by linarith)
  refine ⟨rfl, ?_, rfl, rfl⟩
  simp [gachaOldStatsV1, hm]

/-- Witness for C1 at Azal and level 2. -/
theorem c1_stat_formula_amended_witness :
    (1 : ℚ) ≤ 2 ∧ (getLeveledStats azalData 2).ultCharge = azalData.ultChargeNeeded :=
  ⟨by decide,
   congrArg LeveledStats.ultCharge (c1_stat_formula_amended azalData 2 (by decide)).1⟩

/-- C2: a V2 draw of a hero not yet unlocked reports `isNew = true`,
`newLevel = 1` and no `oldStats`; a draw of a hero with stored level L
reports `isNew = false`, `newLevel = L + 1`,
`oldStats = getLeveledStats(template, max 1 L)`,
`newStats = getLeveledStats(template, L + 1)`, and the record's level
entry for that hero becomes L + 1. -/
theorem c2_draw_result (heroData : HeroTemplate) (st : GameState) :
    (heroData.id ∉ st.save.unlockedHeroes →
      (gachaDrawV2 heroData st).1.isNew = true ∧
      (gachaDrawV2 heroData st).1.level = 1 ∧
      (gachaDrawV2 heroData st).1.oldStats = none) ∧
    (∀ L : ℚ, heroData.id ∈ st.save.unlockedHeroes →
      levelsGet st.save.heroLevels heroData.id = some L →
      (gachaDrawV2 heroData st).1.isNew = false ∧
      (gachaDrawV2 heroData st).1.level = L + 1 ∧
      (gachaDrawV2 heroData st).1.oldStats = some (getLeveledStats heroData (max 1 L)) ∧
      (gachaDrawV2 heroData st).1.newStats = getLeveledStats heroData (L + 1) ∧
      levelsGet (gachaDrawV2 heroData st).2.save.heroLevels heroData.id = some (L + 1)) := by
  constructor
  · intro h
    have hc := contains_eq_false_of_not_mem h
    simp [gachaDrawV2, hc, h]
  · intro L hmem hL
    have hc := contains_eq_true_of_mem hmem
    simp [gachaDrawV2, saveGameData, hc, hL, hmem, jsOrNum_some_zero,
      levelsGet_levelsSet_self]

/-- Witness for C2: drawing Azal on a fresh record is a new unlock at
level 1; drawing it again at stored level 2 reports level 3 and stores
level 3. -/
theorem c2_draw_result_witness :
    (azalData.id ∉ initialState.save.unlockedHeroes ∧
      (gachaDrawV2 azalData initialState).1.isNew = true ∧
      (gachaDrawV2 azalData initialState).1.level = 1 ∧
      (gachaDrawV2 azalData initialState).1.oldStats = none) ∧
    (azalData.id ∈ azalLevel2State.save.unlockedHeroes ∧
      levelsGet azalLevel2State.save.heroLevels azalData.id = some 2 ∧
      (gachaDrawV2 azalData azalLevel2State).1.isNew = false ∧
      (gachaDrawV2 azalData azalLevel2State).1.level = 2 + 1 ∧
      (gachaDrawV2 azalData azalLevel2State).1.oldStats =
        some (getLeveledStats azalData (max 1 2)) ∧
      (gachaDrawV2 azalData azalLevel2State).1.newStats = getLeveledStats azalData (2 + 1) ∧
      levelsGet (gachaDrawV2 azalData azalLevel2State).2.save.heroLevels azalData.id =
        some (2 + 1)) :=
  ⟨⟨by decide, (c2_draw_result azalData initialState).1 (by decide)⟩,
   ⟨by decide, by decide,
    (c2_draw_result azalData azalLevel2State).2 2 (by decide) (by decide)⟩⟩

/-- C7 counterexample: the claim says every gacha draw selects from the
art-bearing list, for both cited draw sites; but the V3 draw (lines
1451-1469) indexes the full `charactersData`: random index 0 yields the
art-less Blazing Knight, and drawing it does put it into the unlocked
set and the level mapping. -/
theorem c7_v3_artless_draw_counterexample :
    gachaSelectV3 0 = some fireKnightData ∧
    hasArt fireKnightData = false ∧
    (gachaDrawV3 fireKnightData initialState).map
        (fun out => out.2.save.unlockedHeroes) = some ["hero_fire_knight"] ∧
    (gachaDrawV3 fireKnightData initialState).map
        (fun out => levelsGet out.2.save.heroLevels "hero_fire_knight") =
      some (some 1) := by
  refine ⟨rfl, rfl, rfl, ?_⟩
  decide

/-- C7 amended: the V2 draw does select from the art-filtered pool — at
every possible random index the selected template has a (non-empty)
portrait reference; the V3 draw selects from the full catalog and can
draw portrait-less heroes. -/
theorem c7_draw_art_amended (idx : ℕ) :
    (∀ (cat : List HeroTemplate) (h : HeroTemplate),
        (heroesWithArt cat)[idx]? = some h → hasArt h = true) ∧
    (∀ h : HeroTemplate, gachaSelectV2 idx = some h → hasArt h = true) := by
  have hgen : ∀ (cat : List HeroTemplate) (h : HeroTemplate),
      (heroesWithArt cat)[idx]? = some h → hasArt h = true := by
    intro cat h hg
    exact hasArt_of_getElem_heroesWithArt cat idx h hg
  exact ⟨hgen, fun h hg => hgen charactersData h hg⟩

/-- Witness for C7 at index 0 of the V2 pool: the selected hero is Azal
and it has art. -/
theorem c7_draw_art_amended_witness :
    gachaSelectV2 0 = some azalData ∧ hasArt azalData = true :=
  ⟨by decide, (c7_draw_art_amended 0).2 azalData (by decide)⟩

/-- C3 counterexample: the claim says after reconciliation every
remaining level-mapping key is a member of the filtered unlocked set,
for any input record including disagreeing ones; but the code filters
the level mapping by catalog membership only, so a record with a level
entry for the valid id `hero_azal` and an empty unlocked set keeps the
entry while the unlocked set stays empty. -/
theorem c3_reconcile_counterexample :
    ¬ (∀ p ∈ (reconcileSave validHeroIds ⟨[], [("hero_azal", 2)], 0⟩).heroLevels,
        p.1 ∈ (reconcileSave validHeroIds ⟨[], [("hero_azal", 2)], 0⟩).unlockedHeroes) := by
  decide

/-- C3 amended: after reconciliation both collections contain only
catalog (art-bearing) ids, and any id outside the catalog appears in
neither; membership of every level key in the unlocked set holds after
reconciliation whenever it held before, but is not enforced on records
whose two collections already disagree. -/
theorem c3_reconcile_amended (ids : List String) (r : SaveRecord) :
    (∀ id ∈ (reconcileSave ids r).unlockedHeroes, id ∈ ids) ∧
    (∀ p ∈ (reconcileSave ids r).heroLevels, p.1 ∈ ids) ∧
    (∀ id, id ∉ ids →
        id ∉ (reconcileSave ids r).unlockedHeroes ∧
        ∀ p ∈ (reconcileSave ids r).heroLevels, p.1 ≠ id) ∧
    ((∀ p ∈ r.heroLevels, p.1 ∈ r.unlockedHeroes) →
        ∀ p ∈ (reconcileSave ids r).heroLevels,
          p.1 ∈ (reconcileSave ids r).unlockedHeroes) := by
  have hmemU : ∀ id, id ∈ (reconcileSave ids r).unlockedHeroes ↔
      (id ∈ r.unlockedHeroes ∧ id ∈ ids) := by
    intro id
    simp [reconcileSave, List.mem_filter, List.contains, List.elem_eq_mem]
  have hmemL : ∀ p, p ∈ (reconcileSave ids r).heroLevels ↔
      (p ∈ r.heroLevels ∧ p.1 ∈ ids) := by
    intro p
    simp [reconcileSave, List.mem_filter, List.contains, List.elem_eq_mem]
  refine ⟨?_, ?_, ?_, ?_⟩
  · intro id hid
    exact ((hmemU id).mp hid).2
  · intro p hp
    exact ((hmemL p).mp hp).2
  · intro id hid
    constructor
    · intro hmem
      exact hid ((hmemU id).mp hmem).2
    · intro p hp hne
      exact hid (hne ▸ ((hmemL p).mp hp).2)
  · intro hsub p hp
    rcases (hmemL p).mp hp with ⟨hpr, hpid⟩
    exact (hmemU p.1).mpr ⟨hsub p hpr, hpid⟩

/-- Witness for C3: the spec's `"ghost"` scenario — an id absent from
the catalog appears in neither collection after reconciliation. -/
theorem c3_reconcile_amended_witness :
    "ghost" ∉ validHeroIds ∧
    ("ghost" ∉ (reconcileSave validHeroIds ⟨["ghost"], [("ghost", 2)], 7⟩).unlockedHeroes ∧
      ∀ p ∈ (reconcileSave validHeroIds ⟨["ghost"], [("ghost", 2)], 7⟩).heroLevels,
        p.1 ≠ "ghost") :=
  ⟨by decide,
   (c3_reconcile_amended validHeroIds ⟨["ghost"], [("ghost", 2)], 7⟩).2.2.1 "ghost" (by decide)⟩

/-- C9 counterexample: the claim says the fallback (fewer than 3
unlocked) uses the first 3 catalog entries with art at both cited run
starts; the V3 `startNewRun` (lines 1484-1513) instead takes the first
3 entries of the full catalog, which on a fresh record yields the
art-less Blazing Knight, Sacred Healer and Shadow Rogue. -/
theorem c9_v3_fallback_counterexample :
    startRunHeroIdsV3 defaultSave ≠ (availableHeroes.take 3).map (fun h => h.id) ∧
    startRunHeroIdsV3 defaultSave =
      ["hero_fire_knight", "hero_healer", "hero_shadow_rogue"] ∧
    hasArt fireKnightData = false := by
  decide

/-- C9 amended: with at least 3 unlocked ids both run starts take the
first 3 in unlock order; with fewer, the V2 fallback is the first 3
art-bearing catalog heroes while the V3 fallback is the first 3 catalog
entries regardless of art.  Every instantiated hero starts with
ultimate meter 0, `currentHP` equal to the computed leveled hp, the
template's unscaled threshold, and level equal to the record's entry
(or 1 when the entry is absent); one draw from a fresh record leaves
the V2 fallback unchanged. -/
theorem c9_build_party_amended (save : SaveRecord) :
    (save.unlockedHeroes.length ≥ 3 →
      startRunHeroIdsV2 save = save.unlockedHeroes.take 3 ∧
      startRunHeroIdsV3 save = save.unlockedHeroes.take 3) ∧
    (save.unlockedHeroes.length < 3 →
      startRunHeroIdsV2 save = (availableHeroes.take 3).map (fun h => h.id) ∧
      startRunHeroIdsV3 save = (charactersData.take 3).map (fun h => h.id)) ∧
    (∀ (id : String) (data : HeroTemplate) (hero : Hero),
      charactersData.find? (fun t => t.id == id) = some data →
      instantiateHeroV2 save id = some hero →
      hero.ultMeter = 0 ∧
      hero.currentHP = (getLeveledStats data hero.level).hp ∧
      hero.ultChargeNeeded = data.ultChargeNeeded ∧
      (levelsGet save.heroLevels id = none → hero.level = 1) ∧
      (∀ L, levelsGet save.heroLevels id = some L → L ≠ 0 → hero.level = L)) ∧
    (∀ (id : String) (data : HeroTemplate) (hero : Hero),
      charactersData.find? (fun t => t.id == id) = some data →
      instantiateHeroV3 save id = some hero →
      hero.ultMeter = 0 ∧
      hero.currentHP = (getLeveledStats data hero.level).hp ∧
      hero.ultChargeNeeded = data.ultChargeNeeded ∧
      (levelsGet save.heroLevels id = none → hero.level = 1) ∧
      (∀ L, levelsGet save.heroLevels id = some L → L ≠ 0 → hero.level = L)) ∧
    (∀ heroData : HeroTemplate,
      startRunHeroIdsV2 (gachaDrawV2 heroData initialState).2.save =
        (availableHeroes.take 3).map (fun h => h.id)) := by
  refine ⟨?_, ?_, ?_, ?_, ?_⟩
  · intro h
    constructor <;> simp [startRunHeroIdsV2, startRunHeroIdsV3, h]
  · intro h
    have h' : ¬ (save.unlockedHeroes.length ≥ 3) := not_le.mpr h
    constructor <;> simp [startRunHeroIdsV2, startRunHeroIdsV3, h']
  · intro id data hero hfind hinst
    rw [instantiateHeroV2, hfind] at hinst
    simp only [Option.some.injEq] at hinst
    subst hinst
    refine ⟨rfl, rfl, rfl, ?_, ?_⟩
    · intro h0
      simp [applyLeveledStats, jsOrNum, h0]
    · intro L hs hL0
      simp [applyLeveledStats, jsOrNum, hs, hL0]
  · intro id data hero hfind hinst
    rw [instantiateHeroV3, hfind] at hinst
    simp only [Option.some.injEq] at hinst
    subst hinst
    refine ⟨rfl, rfl, rfl, ?_, ?_⟩
    · intro h0
      simp [jsOrNum, h0]
    · intro L hs hL0
      simp [jsOrNum, hs, hL0]
  · intro heroData
    have hu : (gachaDrawV2 heroData initialState).2.save.unlockedHeroes = [heroData.id] := by
      simp [gachaDrawV2, saveGameData, initialState, defaultSave]
    simp [startRunHeroIdsV2, hu]

/-- Witness for C9: the fresh record falls back to the first 3
art-bearing heroes, and a record with 3 unlocked ids uses them. -/
theorem c9_build_party_amended_witness :
    (defaultSave.unlockedHeroes.length < 3 ∧
      startRunHeroIdsV2 defaultSave = (availableHeroes.take 3).map (fun h => h.id)) ∧
    ((⟨["hero_azal", "hero_fyra", "hero_lucien"], [], 0⟩ : SaveRecord).unlockedHeroes.length ≥ 3 ∧
      startRunHeroIdsV2 ⟨["hero_azal", "hero_fyra", "hero_lucien"], [], 0⟩ =
        (⟨["hero_azal", "hero_fyra", "hero_lucien"], [], 0⟩ : SaveRecord).unlockedHeroes.take 3) :=
  ⟨⟨by decide, ((c9_build_party_amended defaultSave).2.1 (by decide)).1⟩,
   ⟨by decide,
    ((c9_build_party_amended ⟨["hero_azal", "hero_fyra", "hero_lucien"], [], 0⟩).1
      (by decide)).1⟩⟩

theorem SaveWF_update (r : SaveRecord) (hwf : SaveWF r) (id : String) (v : ℚ)
    (u' : List String) (d : ℚ)
    (hsub : ∀ x ∈ r.unlockedHeroes, x ∈ u')
    (hid : id ∈ u')
    (hsup : ∀ x ∈ u', x ∈ r.unlockedHeroes ∨ x = id) :
    SaveWF ⟨u', levelsSet r.heroLevels id v, d⟩ := by
  constructor
  · intro p hp
    rcases mem_levelsSet r.heroLevels id v p hp with h | h
    · rw [h]
      exact hid
    · exact hsub p.1 (hwf.1 p h)
  · intro x hx
    by_cases hxid : x = id
    · subst hxid
      simp [levelsGet_levelsSet_self]
    · rw [levelsGet_levelsSet_ne _ _ _ _ hxid]
      rcases hsup x hx with h | h
      · exact hwf.2 x h
      · exact absurd h hxid

/-- C4: on any save record satisfying the data-model invariant, each
draw of a hero sets its stored level to exactly old + 1 (to 1 on the
first draw), leaves every other stored level unchanged (so no level
ever decreases), always mutates the record, always persists it
write-through, and preserves the invariant — for both the V2 and the V3
`gachaDraw`. -/
theorem c4_draw_monotonic (heroData : HeroTemplate) (st : GameState) (hwf : SaveWF st.save) :
    (heroData.id ∉ st.save.unlockedHeroes →
        levelsGet (gachaDrawV2 heroData st).2.save.heroLevels heroData.id = some 1) ∧
    (∀ L, levelsGet st.save.heroLevels heroData.id = some L →
        heroData.id ∈ st.save.unlockedHeroes →
        levelsGet (gachaDrawV2 heroData st).2.save.heroLevels heroData.id = some (L + 1)) ∧
    (∀ k, k ≠ heroData.id →
        levelsGet (gachaDrawV2 heroData st).2.save.heroLevels k =
          levelsGet st.save.heroLevels k) ∧
    (gachaDrawV2 heroData st).2.save ≠ st.save ∧
    (gachaDrawV2 heroData st).2.store = some (encodeSave (gachaDrawV2 heroData st).2.save) ∧
    SaveWF (gachaDrawV2 heroData st).2.save ∧
    (gachaDrawV3 heroData st).isSome = true ∧
    (∀ res st2, gachaDrawV3 heroData st = some (res, st2) →
        (heroData.id ∉ st.save.unlockedHeroes →
            levelsGet st2.save.heroLevels heroData.id = some 1) ∧
        (∀ L, levelsGet st.save.heroLevels heroData.id = some L →
            heroData.id ∈ st.save.unlockedHeroes →
            levelsGet st2.save.heroLevels heroData.id = some (L + 1)) ∧
        (∀ k, k ≠ heroData.id →
            levelsGet st2.save.heroLevels k = levelsGet st.save.heroLevels k) ∧
        st2.save ≠ st.save ∧
        st2.store = some (encodeSave st2.save) ∧
        SaveWF st2.save) := by
  have hlev2 : (gachaDrawV2 heroData st).2.save.heroLevels =
      levelsSet st.save.heroLevels heroData.id
        (if st.save.unlockedHeroes.contains heroData.id then
          jsOrNum (levelsGet st.save.heroLevels heroData.id) 0 + 1 else 1) := rfl
  have hunl2 : (gachaDrawV2 heroData st).2.save.unlockedHeroes =
      (if st.save.unlockedHeroes.contains heroData.id then st.save.unlockedHeroes
       else st.save.unlockedHeroes ++ [heroData.id]) := rfl
  have hsouls2 : (gachaDrawV2 heroData st).2.save.demonSouls = st.save.demonSouls := rfl
  refine ⟨?_, ?_, ?_, ?_, rfl, ?_, ?_, ?_⟩
  · intro h
    rw [hlev2, contains_eq_false_of_not_mem h]
    simp [levelsGet_levelsSet_self]
  · intro L hL hmem
    rw [hlev2, contains_eq_true_of_mem hmem, hL]
    simp [levelsGet_levelsSet_self, jsOrNum_some_zero]
  · intro k hk
    rw [hlev2, levelsGet_levelsSet_ne _ _ _ _ hk]
  · intro he
    by_cases hc : heroData.id ∈ st.save.unlockedHeroes
    · obtain ⟨L, hL⟩ := Option.isSome_iff_exists.mp (hwf.2 _ hc)
      have hne : levelsGet st.save.heroLevels heroData.id ≠
          some (if st.save.unlockedHeroes.contains heroData.id then
            jsOrNum (levelsGet st.save.heroLevels heroData.id) 0 + 1 else 1) := by
        rw [contains_eq_true_of_mem hc, hL, jsOrNum_some_zero]
        intro hcontra
        simp at hcontra
      exact levelsSet_ne_of_get_ne _ _ _ hne (by rw [← hlev2, he])
    · have hu := congrArg SaveRecord.unlockedHeroes he
      rw [hunl2, contains_eq_false_of_not_mem hc] at hu
      have hlen := congrArg List.length hu
      simp at hlen
  · rw [show (gachaDrawV2 heroData st).2.save =
        ⟨(gachaDrawV2 heroData st).2.save.unlockedHeroes,
         (gachaDrawV2 heroData st).2.save.heroLevels,
         (gachaDrawV2 heroData st).2.save.demonSouls⟩ from rfl, hlev2, hunl2]
    by_cases hc : heroData.id ∈ st.save.unlockedHeroes
    · rw [contains_eq_true_of_mem hc]
      exact SaveWF_update st.save hwf heroData.id _ _ _
        (fun x hx => hx) hc (fun x hx => Or.inl hx)
    · rw [contains_eq_false_of_not_mem hc]
      refine SaveWF_update st.save hwf heroData.id _ _ _
        (fun x hx => List.mem_append_left _ hx)
        (List.mem_append_right _ (List.mem_singleton.mpr rfl))
        (fun x hx => ?_)
      rcases List.mem_append.mp hx with h | h
      · exact Or.inl h
      · exact Or.inr (List.mem_singleton.mp h)
  · by_cases hc : heroData.id ∈ st.save.unlockedHeroes
    · obtain ⟨L, hL⟩ := Option.isSome_iff_exists.mp (hwf.2 _ hc)
      simp [gachaDrawV3, contains_eq_true_of_mem hc, hc, hL]
    · simp [gachaDrawV3, contains_eq_false_of_not_mem hc, hc]
  · intro res st2 hdraw
    by_cases hc : heroData.id ∈ st.save.unlockedHeroes
    · obtain ⟨L, hL⟩ := Option.isSome_iff_exists.mp (hwf.2 _ hc)
      rw [gachaDrawV3] at hdraw
      rw [contains_eq_true_of_mem hc] at hdraw
      simp only [if_true, hL, Option.some.injEq, Prod.mk.injEq] at hdraw
      obtain ⟨hres, hst2⟩ := hdraw
      subst hst2
      refine ⟨fun h => absurd hc h, ?_, ?_, ?_, rfl, ?_⟩
      · intro L2 hL2 _
        rw [hL] at hL2
        obtain rfl : L2 = L := by simpa using hL2.symm
        simp [saveGameData, levelsGet_levelsSet_self]
      · intro k hk
        simpa [saveGameData] using levelsGet_levelsSet_ne st.save.heroLevels heroData.id k (L + 1) hk
      · intro he
        have hl := congrArg SaveRecord.heroLevels he
        simp only [saveGameData] at hl
        have hne : levelsGet st.save.heroLevels heroData.id ≠ some (L + 1) := by
          rw [hL]
          intro hcontra
          simp at hcontra
        exact levelsSet_ne_of_get_ne _ _ _ hne hl
      · exact SaveWF_update st.save hwf heroData.id (L + 1)
          st.save.unlockedHeroes st.save.demonSouls
          (fun x hx => hx) hc (fun x hx => Or.inl hx)
    · rw [gachaDrawV3] at hdraw
      rw [contains_eq_false_of_not_mem hc] at hdraw
      simp only [if_false, Option.some.injEq, Prod.mk.injEq, Bool.false_eq_true] at hdraw
      obtain ⟨hres, hst2⟩ := hdraw
      subst hst2
      refine ⟨?_, ?_, ?_, ?_, rfl, ?_⟩
      · intro _
        simp [saveGameData, levelsGet_levelsSet_self]
      · intro L2 _ hmem
        exact absurd hmem hc
      · intro k hk
        simpa [saveGameData] using levelsGet_levelsSet_ne st.save.heroLevels heroData.id k 1 hk
      · intro he
        have hu := congrArg SaveRecord.unlockedHeroes he
        simp only [saveGameData] at hu
        have hlen := congrArg List.length hu
        simp at hlen
      · exact SaveWF_update st.save hwf heroData.id 1
          (st.save.unlockedHeroes ++ [heroData.id]) st.save.demonSouls
          (fun x hx => List.mem_append_left _ hx)
          (List.mem_append_right _ (List.mem_singleton.mpr rfl))
          (fun x hx => by
            rcases List.mem_append.mp hx with h | h
            · exact Or.inl h
            · exact Or.inr (List.mem_singleton.mp h))

/-- Witness for C4 at the concrete Azal-at-level-2 record: the record
satisfies the invariant, and the draw is not a no-op. -/
theorem c4_draw_monotonic_witness :
    SaveWF azalLevel2State.save ∧
    (gachaDrawV2 azalData azalLevel2State).2.save ≠ azalLevel2State.save :=
  ⟨⟨by decide, by decide⟩,
   (c4_draw_monotonic azalData azalLevel2State ⟨by decide, by decide⟩).2.2.2.1⟩
